import Mathlib

/-!
Shallow embedding of `src/ui/render.ts` (obsidian-dataview value renderer).

The renderer mutates a caller-owned DOM container by appending nodes; we model
a render call as a pure function returning the list of nodes it appends.
External collaborators (the host markdown renderer `MarkdownRenderer.renderMarkdown`,
the date/duration formatters from `util/normalize`, and `Link.markdown()`) are
consumed interfaces, modelled as fields of a `Host` parameter.
`renderCompactMarkdown` is modelled in its generic-surface branch (the `else`
branch, lines 54-65 of the source), i.e. the component is not an
`InlineFieldLivePreviewComponent`.
-/

namespace Dataview

/-- Output DOM node: a text node, or an element with a tag, a class list,
an attribute list and children (modelling `createEl`, `appendText`,
attribute assignment and `appendChild`). -/
inductive Node where
  | text : String → Node
  | elem : String → List String → List (String × String) → List Node → Node

/-- The `Literal` value domain of `data-model/value` as dispatched on by
`renderValue`: the classification predicates `Values.isNull`, `isDate`,
`isDuration`, `isString`, `isBoolean`, `isNumber`, `isLink`, `isHtml`,
`isWidget` (with `Widgets.isListPair` / `isExternalLink` sub-dispatch),
`isFunction`, `isArray`/`DataArray.isDataArray` and `isObject` are mutually
exclusive, so they become constructors.  Payloads carry exactly what the
renderer reads: a date or duration is kept abstract (formatted by the host),
a link is its payload fed to `Link.markdown()`, an `html` value is the raw
node appended verbatim, an `obj` carries `constructor.name` (`none` when the
value has no constructor) and its entries in `Object.entries` order, and
`unrecognized` carries the `JSON.stringify` dump of a value matching no
classification.  Plain arrays and `DataArray`s take the same branch in the
source (line 132), so a single `array` constructor covers both. -/
inductive Literal where
  | null : Literal
  | str : String → Literal
  | num : Int → Literal
  | bool : Bool → Literal
  | date : String → Literal
  | duration : String → Literal
  | link : String → Literal
  | html : Node → Literal
  | listPair : Literal → Literal → Literal
  | externalLink : String → Option String → Literal
  | unknownWidget : String → Literal
  | func : String → Literal
  | array : List Literal → Literal
  | obj : Option String → List (String × Literal) → Literal
  | unrecognized : String → Literal

/-- The two values of `ValueRenderContext` in the source. -/
inductive ValueRenderContext where
  | root : ValueRenderContext
  | list : ValueRenderContext
deriving DecidableEq, Repr

/-- The fields of `QuerySettings` read by `renderValue`. -/
structure QuerySettings where
  renderNullAs : String
  maxRecursiveRenderDepth : Nat
deriving DecidableEq, Repr

/-- Consumed host interfaces: `markdown md` is the child-node list the host
`MarkdownRenderer.renderMarkdown` produces for markdown text `md`;
`fmtDate` and `fmtDuration` are `renderMinimalDate` / `renderMinimalDuration`;
`linkMarkdown` is `Link.markdown()` on the link payload. -/
structure Host where
  markdown : String → List Node
  fmtDate : String → String
  fmtDuration : String → String
  linkMarkdown : String → String

/-- Whether a node is an element (DOM `.children` counts only these). -/
def Node.isElem : Node → Bool
  | .elem _ _ _ _ => true
  | .text _ => false

/-- Whether a node is a `p` element (matched by the `:scope > p` selector). -/
def Node.isParagraph : Node → Bool
  | .elem "p" _ _ _ => true
  | _ => false

/-- Child nodes of a node (`childNodes`; a text node has none). -/
def Node.children : Node → List Node
  | .elem _ _ _ cs => cs
  | .text _ => []

/-- First direct `p` element child, as `querySelector(":scope > p")` finds. -/
def firstParagraph (ns : List Node) : Option Node :=
  ns.find? Node.isParagraph

/-- Remove the first direct `p` element child (`removeChild(paragraph)`
applied to the node `querySelector` returned). -/
def eraseFirstParagraph : List Node → List Node
  | [] => []
  | n :: ns => if n.isParagraph then ns else n :: eraseFirstParagraph ns

/-- Post-processing of the sub-span contents in the generic-surface branch of
`renderCompactMarkdown` (lines 58-64): if the sub-span has exactly one element
child and a direct `p` child exists, each of the paragraph's child nodes is
re-appended at the end of the sub-span (`appendChild` moves them) and the
emptied paragraph is removed; otherwise the contents are untouched. -/
def collapseSingleParagraph (sub : List Node) : List Node :=
  match firstParagraph sub with
  | some p =>
      if (sub.filter Node.isElem).length = 1 then
        eraseFirstParagraph sub ++ p.children
      else sub
  | none => sub

/-- Generic-surface branch of `renderCompactMarkdown` (lines 54-65): create a
span sub-container inside the target, let the host render the markdown into
it, then collapse a single-paragraph wrapping.  The returned list is what the
call appends to the target container: exactly the one sub-span. -/
def renderCompactMarkdown (host : Host) (markdown : String) : List Node :=
  [Node.elem "span" [] [] (collapseSingleParagraph (host.markdown markdown))]

/-- Comma joining of compact composite children: a literal `", "` text node is
inserted before every rendered element except the first (lines 152-158 and
181-187). -/
def joinComma : List (List Node) → List Node
  | [] => []
  | [r] => r
  | r :: r2 :: rs => r ++ Node.text ", " :: joinComma (r2 :: rs)

/-- Class list of the `ul` created for an expanded sequence (lines 134-140). -/
def listUlClasses (context : ValueRenderContext) : List String :=
  ["dataview", "dataview-ul",
    if context = .list then "dataview-result-list-ul" else "dataview-result-list-root-ul"]

mutual

/-- The recursive dispatcher `renderValue` (lines 86-193), returning the nodes
it appends to its container.  The depth guard, the dispatch order, the widget
sub-dispatch, the foreign-object check on `constructor.name` and the two
composite layouts follow the source line by line. -/
def renderValue (host : Host) (settings : QuerySettings) (expandList : Bool)
    (context : ValueRenderContext) (depth : Nat) (field : Literal) : List Node :=
  if depth > settings.maxRecursiveRenderDepth then
    [Node.text "..."]
  else
    match field with
    | .null => renderCompactMarkdown host settings.renderNullAs
    | .date d => [Node.text (host.fmtDate d)]
    | .duration d => [Node.text (host.fmtDuration d)]
    | .str s => renderCompactMarkdown host s
    | .bool b => renderCompactMarkdown host (if b then "true" else "false")
    | .num n => renderCompactMarkdown host (toString n)
    | .link l => renderCompactMarkdown host (host.linkMarkdown l)
    | .html n => [n]
    | .listPair k v =>
        renderValue host settings expandList context depth k
          ++ Node.text ": "
          :: renderValue host settings expandList context depth v
    | .externalLink url display =>
        [Node.elem "a" ["external-link"]
          [("rel", "noopener"), ("target", "_blank"), ("href", url)]
          [Node.text (display.getD url)]]
    | .unknownWidget tag => [Node.text ("<unknown widget \x27" ++ tag ++ ">")]
    | .func _ => [Node.text "<function>"]
    | .array xs =>
        if expandList then
          [Node.elem "ul" (listUlClasses context) []
            ((renderElems host settings expandList (depth + 1) xs).map
              (fun r => Node.elem "li" ["dataview-result-list-li"] [] r))]
        else
          if xs.length = 0 then [Node.text "<empty list>"]
          else
            [Node.elem "span" ["dataview", "dataview-result-list-span"] []
              (joinComma (renderElems host settings expandList (depth + 1) xs))]
    | .obj tyName fields =>
        match tyName with
        | some n =>
            if n ≠ "" ∧ n ≠ "Object" then [Node.text ("<" ++ n ++ ">")]
            else renderObjBody host settings expandList (depth + 1) fields
        | none => renderObjBody host settings expandList (depth + 1) fields
    | .unrecognized dump => [Node.text ("Unrecognized: " ++ dump)]

/-- Rendered children of a sequence, each at the given (already incremented)
depth with context forced to `list` (lines 141-144 and 153-158). -/
def renderElems (host : Host) (settings : QuerySettings) (expandList : Bool)
    (depth : Nat) : List Literal → List (List Node)
  | [] => []
  | x :: xs =>
      renderValue host settings expandList .list depth x
        :: renderElems host settings expandList depth xs

/-- Rendered entries of a keyed mapping: each entry contributes the literal
key text followed by the recursively rendered value at the given (already
incremented) depth with context `list` (lines 169-172 and 182-188). -/
def renderEntries (host : Host) (settings : QuerySettings) (expandList : Bool)
    (depth : Nat) : List (String × Literal) → List (List Node)
  | [] => []
  | (k, v) :: fs =>
      (Node.text (k ++ ": ")
          :: renderValue host settings expandList .list depth v)
        :: renderEntries host settings expandList depth fs

/-- Body of the plain-object branch (lines 167-189), producing the nodes
appended for a keyed mapping that passed the foreign-object check. -/
def renderObjBody (host : Host) (settings : QuerySettings) (expandList : Bool)
    (depth : Nat) (fields : List (String × Literal)) : List Node :=
  if expandList then
    [Node.elem "ul" ["dataview", "dataview-ul", "dataview-result-object-ul"] []
      ((renderEntries host settings expandList depth fields).map
        (fun r => Node.elem "li" ["dataview", "dataview-li", "dataview-result-object-li"] [] r))]
  else
    if fields.length = 0 then [Node.text "<empty object>"]
    else
      [Node.elem "span" ["dataview", "dataview-result-object-span"] []
        (joinComma (renderEntries host settings expandList depth fields))]

end

mutual

/-- Truncation of a value at a composite-nesting budget: with budget `0` the
value is replaced wholesale (by `Literal.null`); otherwise sequences and
mappings keep their shape with children truncated at budget minus one, a
`list-pair` keeps the same budget for key and value (the source renders them
at the same depth, line 116-118), and every other value is kept whole.  Used
to state that rendering at depth `d` never visits parts of the value nested
more than `maxRecursiveRenderDepth + 1 - d` composite levels deep. -/
def truncLit : Nat → Literal → Literal
  | 0, _ => .null
  | g + 1, .listPair k v => .listPair (truncLit (g + 1) k) (truncLit (g + 1) v)
  | g + 1, .array xs => .array (truncElems g xs)
  | g + 1, .obj t fs => .obj t (truncEntries g fs)
  | _ + 1, f => f

/-- Pointwise truncation of the elements of a sequence. -/
def truncElems (g : Nat) : List Literal → List Literal
  | [] => []
  | x :: xs => truncLit g x :: truncElems g xs

/-- Pointwise truncation of the values of a mapping's entries. -/
def truncEntries (g : Nat) : List (String × Literal) → List (String × Literal)
  | [] => []
  | (k, v) :: fs => (k, truncLit g v) :: truncEntries g fs

end

/-- A concrete host instantiation used to exercise the renderer on concrete
inputs: the markdown renderer wraps its text in a single paragraph (the
common single-paragraph case), and the formatters are simple taggers. -/
def sampleHost : Host where
  markdown := fun s => [Node.elem "p" [] [] [Node.text s]]
  fmtDate := fun d => "date:" ++ d
  fmtDuration := fun d => "dur:" ++ d
  linkMarkdown := fun l => "[[" ++ l ++ "]]"

/-- Concrete settings used to exercise the renderer on concrete inputs. -/
def sampleSettings : QuerySettings where
  renderNullAs := "-"
  maxRecursiveRenderDepth := 1

/-! ## Helper lemmas -/

/-- A paragraph node is an element node. -/
theorem isElem_of_isParagraph {n : Node} (h : n.isParagraph = true) : n.isElem = true := by
  cases n with
  | text s => simp [Node.isParagraph] at h
  | elem t cl ats cs => simp [Node.isElem]

/-- When the element children of a node list are exactly one paragraph `p`,
the `:scope > p` selector finds `p`. -/
theorem firstParagraph_of_filter_eq {hs : List Node} {p : Node}
    (hp : p.isParagraph = true) (h : hs.filter Node.isElem = [p]) :
    firstParagraph hs = some p := by
  induction hs with
  | nil => simp at h
  | cons n ns ih =>
      by_cases he : n.isElem = true
      · rw [List.filter_cons_of_pos he] at h
        obtain ⟨rfl, h2⟩ := List.cons_eq_cons.mp h
        simp [firstParagraph, List.find?, hp]
      · have hnp : n.isParagraph = false := by
          cases hq : n.isParagraph
          · rfl
          · exact absurd (isElem_of_isParagraph hq) he
        rw [List.filter_cons_of_neg (by simpa using he)] at h
        have := ih h
        simpa [firstParagraph, List.find?, hnp] using this

/-- Truncation preserves the length of a sequence. -/
theorem truncElems_length (g : Nat) (xs : List Literal) :
    (truncElems g xs).length = xs.length := by
  induction xs with
  | nil => simp [truncElems]
  | cons x xs ih => simp [truncElems, ih]

/-- Truncation preserves the number of entries of a mapping. -/
theorem truncEntries_length (g : Nat) (fs : List (String × Literal)) :
    (truncEntries g fs).length = fs.length := by
  induction fs with
  | nil => simp [truncEntries]
  | cons f fs ih => cases f; simp [truncEntries, ih]

/-- Unfolding of the `list-pair` branch when the depth guard does not fire. -/
theorem renderValue_listPair (host : Host) (settings : QuerySettings) (expandList : Bool)
    (context : ValueRenderContext) (depth : Nat) (k v : Literal)
    (hd : ¬ depth > settings.maxRecursiveRenderDepth) :
    renderValue host settings expandList context depth (.listPair k v)
      = renderValue host settings expandList context depth k
          ++ Node.text ": " :: renderValue host settings expandList context depth v := by
  simp [renderValue, hd]

/-- Sequence elements whose render is unchanged by truncation render to the
same child list after pointwise truncation. -/
theorem renderElems_congr_trunc (host : Host) (settings : QuerySettings)
    (expandList : Bool) (g d : Nat) (xs : List Literal)
    (h : ∀ x ∈ xs, renderValue host settings expandList .list d x
        = renderValue host settings expandList .list d (truncLit g x)) :
    renderElems host settings expandList d (truncElems g xs)
      = renderElems host settings expandList d xs := by
  induction xs with
  | nil => simp [truncElems]
  | cons x xs ih =>
      simp only [truncElems, renderElems]
      rw [← h x (by simp), ih (fun y hy => h y (by simp [hy]))]

/-- Mapping entries whose value render is unchanged by truncation render to
the same entry list after pointwise truncation. -/
theorem renderEntries_congr_trunc (host : Host) (settings : QuerySettings)
    (expandList : Bool) (g d : Nat) (fs : List (String × Literal))
    (h : ∀ kv ∈ fs, renderValue host settings expandList .list d kv.2
        = renderValue host settings expandList .list d (truncLit g kv.2)) :
    renderEntries host settings expandList d (truncEntries g fs)
      = renderEntries host settings expandList d fs := by
  induction fs with
  | nil => simp [truncEntries]
  | cons kv fs ih =>
      obtain ⟨k, v⟩ := kv
      simp only [truncEntries, renderEntries]
      rw [← h (k, v) (by simp), ih (fun y hy => h y (by simp [hy]))]

/-- Rendering never looks below the remaining depth budget: the output at
depth `depth` is unchanged when the value is truncated at
`maxRecursiveRenderDepth + 1 - depth` composite levels.  Proved by strong
induction on the size of the value. -/
theorem renderValue_trunc_aux (host : Host) (settings : QuerySettings) (expandList : Bool) :
    ∀ (n : Nat) (field : Literal), sizeOf field < n →
      ∀ (context : ValueRenderContext) (depth : Nat),
      renderValue host settings expandList context depth field
        = renderValue host settings expandList context depth
            (truncLit (settings.maxRecursiveRenderDepth + 1 - depth) field) := by
  intro n
  induction n with
  | zero => exact fun field hf => absurd hf (Nat.not_lt_zero _)
  | succ n ih =>
      intro field hf context depth
      by_cases hd : depth > settings.maxRecursiveRenderDepth
      · conv_lhs => rw [renderValue.eq_def]
        conv_rhs => rw [renderValue.eq_def]
        simp [hd]
      · have hg : settings.maxRecursiveRenderDepth + 1 - depth
            = (settings.maxRecursiveRenderDepth - depth) + 1 := by omega
        have hg2 : settings.maxRecursiveRenderDepth + 1 - (depth + 1)
            = settings.maxRecursiveRenderDepth - depth := by omega
        cases field with
        | null => rw [hg]; simp [truncLit]
        | str s => rw [hg]; simp [truncLit]
        | num i => rw [hg]; simp [truncLit]
        | bool b => rw [hg]; simp [truncLit]
        | date d0 => rw [hg]; simp [truncLit]
        | duration d0 => rw [hg]; simp [truncLit]
        | link l => rw [hg]; simp [truncLit]
        | html nd => rw [hg]; simp [truncLit]
        | externalLink url disp => rw [hg]; simp [truncLit]
        | unknownWidget w => rw [hg]; simp [truncLit]
        | func f => rw [hg]; simp [truncLit]
        | unrecognized u => rw [hg]; simp [truncLit]
        | listPair k v =>
            have hk : sizeOf k < n := by simp at hf; omega
            have hv : sizeOf v < n := by simp at hf; omega
            rw [hg]
            simp only [truncLit]
            rw [← hg]
            rw [renderValue_listPair host settings expandList context depth k v hd,
              renderValue_listPair host settings expandList context depth _ _ hd,
              ih k hk context depth, ih v hv context depth]
        | array xs =>
            have hmem : ∀ x ∈ xs, sizeOf x < n := by
              intro x hx
              have h1 := List.sizeOf_lt_of_mem hx
              simp at hf
              omega
            have hchild : ∀ x ∈ xs,
                renderValue host settings expandList .list (depth + 1) x
                  = renderValue host settings expandList .list (depth + 1)
                      (truncLit (settings.maxRecursiveRenderDepth - depth) x) := by
              intro x hx
              have := ih x (hmem x hx) .list (depth + 1)
              rwa [hg2] at this
            have he := renderElems_congr_trunc host settings expandList
              (settings.maxRecursiveRenderDepth - depth) (depth + 1) xs hchild
            rw [hg]
            simp only [truncLit]
            simp [renderValue, hd, he]
            rw [truncElems_length]
        | obj t fs =>
            have hmem : ∀ kv ∈ fs, sizeOf kv.2 < n := by
              intro kv hkv
              have h1 := List.sizeOf_lt_of_mem hkv
              obtain ⟨k, v⟩ := kv
              simp at h1 ⊢
              simp at hf
              omega
            have hchild : ∀ kv ∈ fs,
                renderValue host settings expandList .list (depth + 1) kv.2
                  = renderValue host settings expandList .list (depth + 1)
                      (truncLit (settings.maxRecursiveRenderDepth - depth) kv.2) := by
              intro kv hkv
              have := ih kv.2 (hmem kv hkv) .list (depth + 1)
              rwa [hg2] at this
            have he := renderEntries_congr_trunc host settings expandList
              (settings.maxRecursiveRenderDepth - depth) (depth + 1) fs hchild
            rw [hg]
            simp only [truncLit]
            cases t with
            | none =>
                simp [renderValue, hd, renderObjBody, he]
                rw [truncEntries_length]
            | some tn =>
                by_cases htn : tn ≠ "" ∧ tn ≠ "Object"
                · simp [renderValue, hd, htn]
                · simp [renderValue, hd, htn, renderObjBody, he]
                  rw [truncEntries_length]

/-! ## Claim theorems -/

/-- Claim C1: a render call invoked at a depth strictly greater than
`settings.maxRecursiveRenderDepth` appends exactly the literal `"..."` and
returns immediately without dispatching on the value (the output is the same
for every value, so nothing is inspected and nothing recurses); and a render
call never visits parts of the value nested strictly deeper than the
remaining budget: its output is unchanged when the value is truncated at
`maxRecursiveRenderDepth + 1 - depth` composite levels.  Termination for
every representable input is witnessed by `renderValue` being a total
function. -/
theorem renderValue_depth_guard_and_truncation (host : Host) (settings : QuerySettings)
    (expandList : Bool) (context : ValueRenderContext) (depth : Nat) (field : Literal) :
    (depth > settings.maxRecursiveRenderDepth →
      renderValue host settings expandList context depth field = [Node.text "..."])
    ∧ renderValue host settings expandList context depth field
        = renderValue host settings expandList context depth
            (truncLit (settings.maxRecursiveRenderDepth + 1 - depth) field) := by
  constructor
  · intro hd
    conv_lhs => rw [renderValue.eq_def]
    simp [hd]
  · exact renderValue_trunc_aux host settings expandList (sizeOf field + 1) field
      (Nat.lt_succ_self _) context depth

/-- Witness for C1: with `maxRecursiveRenderDepth = 1`, a call at depth 2
renders a nonempty sequence as the bare ellipsis marker. -/
theorem renderValue_depth_guard_and_truncation_witness :
    renderValue sampleHost sampleSettings false .root 2 (.array [.str "a"])
      = [Node.text "..."] :=
  (renderValue_depth_guard_and_truncation sampleHost sampleSettings false .root 2
      (.array [.str "a"])).1 (by decide)

/-- Claim C2: a keyed mapping whose structural type name is present
(`constructor.name` truthy, i.e. nonempty) and is not the generic `"Object"`
renders as the single placeholder text `<TypeName>` in both compact and
expanded mode, for every field list, with no recursion into the fields. -/
theorem renderValue_foreign_object_placeholder (host : Host) (settings : QuerySettings)
    (expandList : Bool) (context : ValueRenderContext) (depth : Nat)
    (n : String) (fields : List (String × Literal))
    (hdepth : depth ≤ settings.maxRecursiveRenderDepth)
    (hne : n ≠ "") (hobj : n ≠ "Object") :
    renderValue host settings expandList context depth (.obj (some n) fields)
      = [Node.text ("<" ++ n ++ ">")] := by
  have hd : ¬ depth > settings.maxRecursiveRenderDepth := Nat.not_lt.mpr hdepth
  simp [renderValue, hd, hne, hobj]

/-- Witness for C2: a `DateTime`-named object with a field renders as
`<DateTime>` in compact and in expanded mode. -/
theorem renderValue_foreign_object_placeholder_witness :
    renderValue sampleHost sampleSettings false .root 0
        (.obj (some "DateTime") [("k", .num 1)]) = [Node.text "<DateTime>"]
    ∧ renderValue sampleHost sampleSettings true .root 0
        (.obj (some "DateTime") [("k", .num 1)]) = [Node.text "<DateTime>"] :=
  ⟨renderValue_foreign_object_placeholder sampleHost sampleSettings false .root 0
      "DateTime" [("k", .num 1)] (by decide) (by decide) (by decide),
    renderValue_foreign_object_placeholder sampleHost sampleSettings true .root 0
      "DateTime" [("k", .num 1)] (by decide) (by decide) (by decide)⟩

/-- Claim C3: a non-empty sequence `[a, b, c]` in compact mode renders as one
inline span grouping node containing the recursive renders of `a`, `b`, `c`
in order, each at `depth + 1` with context `list`, separated by exactly the
literal `", "` before every element except the first, with no leading or
trailing separator. -/
theorem renderValue_compact_sequence_three (host : Host) (settings : QuerySettings)
    (context : ValueRenderContext) (depth : Nat) (a b c : Literal)
    (hdepth : depth ≤ settings.maxRecursiveRenderDepth) :
    renderValue host settings false context depth (.array [a, b, c])
      = [Node.elem "span" ["dataview", "dataview-result-list-span"] []
          (renderValue host settings false .list (depth + 1) a
            ++ Node.text ", " :: (renderValue host settings false .list (depth + 1) b
            ++ Node.text ", " :: renderValue host settings false .list (depth + 1) c))] := by
  have hd : ¬ depth > settings.maxRecursiveRenderDepth := Nat.not_lt.mpr hdepth
  simp [renderValue, renderElems, joinComma, hd]

/-- Witness for C3 on the concrete sequence of a string, a number and a
boolean. -/
theorem renderValue_compact_sequence_three_witness :
    renderValue sampleHost sampleSettings false .root 0
        (.array [.str "a", .num 5, .bool true])
      = [Node.elem "span" ["dataview", "dataview-result-list-span"] []
          (renderValue sampleHost sampleSettings false .list 1 (.str "a")
            ++ Node.text ", " :: (renderValue sampleHost sampleSettings false .list 1 (.num 5)
            ++ Node.text ", " :: renderValue sampleHost sampleSettings false .list 1 (.bool true)))] :=
  renderValue_compact_sequence_three sampleHost sampleSettings .root 0
    (.str "a") (.num 5) (.bool true) (by decide)

/-- Claim C4: rendering `null` produces exactly the output of rendering the
plain string `settings.renderNullAs` through the string dispatch path, at
every depth, mode and context; both delegate to the compact markup renderer
with the same markup text. -/
theorem renderValue_null_eq_renderNullAs_string (host : Host) (settings : QuerySettings)
    (expandList : Bool) (context : ValueRenderContext) (depth : Nat) :
    renderValue host settings expandList context depth .null
      = renderValue host settings expandList context depth (.str settings.renderNullAs) := by
  by_cases hd : depth > settings.maxRecursiveRenderDepth <;> simp [renderValue, hd]

/-- Claim C5: a `list-pair` widget renders as the render of its key, then the
literal `": "`, then the render of its value, with both recursive calls at
the same depth and the same context as the parent call. -/
theorem renderValue_listPair_passthrough (host : Host) (settings : QuerySettings)
    (expandList : Bool) (context : ValueRenderContext) (depth : Nat) (k v : Literal)
    (hdepth : depth ≤ settings.maxRecursiveRenderDepth) :
    renderValue host settings expandList context depth (.listPair k v)
      = renderValue host settings expandList context depth k
          ++ Node.text ": " :: renderValue host settings expandList context depth v := by
  have hd : ¬ depth > settings.maxRecursiveRenderDepth := Nat.not_lt.mpr hdepth
  simp [renderValue, hd]

/-- Witness for C5: the pair of key `"k"` and value `5` at depth 0. -/
theorem renderValue_listPair_passthrough_witness :
    renderValue sampleHost sampleSettings false .root 0 (.listPair (.str "k") (.num 5))
      = renderValue sampleHost sampleSettings false .root 0 (.str "k")
          ++ Node.text ": " :: renderValue sampleHost sampleSettings false .root 0 (.num 5) :=
  renderValue_listPair_passthrough sampleHost sampleSettings false .root 0
    (.str "k") (.num 5) (by decide)

/-- Claim C6: an `external-link` widget renders as a single hyperlink node
with class `external-link`, `rel="noopener"`, `target="_blank"`, `href` equal
to the url, and visible text equal to the display text when present and the
raw url otherwise. -/
theorem renderValue_externalLink_node (host : Host) (settings : QuerySettings)
    (expandList : Bool) (context : ValueRenderContext) (depth : Nat)
    (url : String) (display : Option String)
    (hdepth : depth ≤ settings.maxRecursiveRenderDepth) :
    renderValue host settings expandList context depth (.externalLink url display)
      = [Node.elem "a" ["external-link"]
          [("rel", "noopener"), ("target", "_blank"), ("href", url)]
          [Node.text (display.getD url)]] := by
  have hd : ¬ depth > settings.maxRecursiveRenderDepth := Nat.not_lt.mpr hdepth
  simp [renderValue, hd]

/-- Witness for C6: the widget with url `https://x` and no display text shows
the raw url as its visible text. -/
theorem renderValue_externalLink_node_witness :
    renderValue sampleHost sampleSettings false .root 0 (.externalLink "https://x" none)
      = [Node.elem "a" ["external-link"]
          [("rel", "noopener"), ("target", "_blank"), ("href", "https://x")]
          [Node.text "https://x"]] :=
  renderValue_externalLink_node sampleHost sampleSettings false .root 0
    "https://x" none (by decide)

/-- Claim C7: in compact mode an empty sequence renders as exactly the text
`<empty list>` and an empty keyed mapping (whose type name does not trip the
foreign-object check) as exactly the text `<empty object>`, with no grouping
node and no recursion. -/
theorem renderValue_compact_empty_placeholders (host : Host) (settings : QuerySettings)
    (context : ValueRenderContext) (depth : Nat) (ty : Option String)
    (hdepth : depth ≤ settings.maxRecursiveRenderDepth)
    (hty : ty = none ∨ ty = some "" ∨ ty = some "Object") :
    renderValue host settings false context depth (.array []) = [Node.text "<empty list>"]
    ∧ renderValue host settings false context depth (.obj ty []) = [Node.text "<empty object>"] := by
  have hd : ¬ depth > settings.maxRecursiveRenderDepth := Nat.not_lt.mpr hdepth
  refine ⟨by simp [renderValue, hd], ?_⟩
  rcases hty with h | h | h <;> subst h <;> simp [renderValue, renderObjBody, hd]

/-- Witness for C7 at depth 0 with the generic `Object` type name. -/
theorem renderValue_compact_empty_placeholders_witness :
    renderValue sampleHost sampleSettings false .root 0 (.array []) = [Node.text "<empty list>"]
    ∧ renderValue sampleHost sampleSettings false .root 0 (.obj (some "Object") [])
        = [Node.text "<empty object>"] :=
  renderValue_compact_empty_placeholders sampleHost sampleSettings .root 0
    (some "Object") (by decide) (Or.inr (Or.inr rfl))

/-- Claim C8: the generic-surface strategy of the compact markup renderer
appends one fresh span sub-node to the target; when the sub-node ends up with
exactly one element child and that child is a paragraph, the paragraph's
children are hoisted to be direct children of the sub-node and the emptied
paragraph is removed, while the span itself remains as the outer wrapper;
otherwise the sub-node's contents are exactly the host output, unchanged. -/
theorem renderCompactMarkdown_generic_collapse (host : Host) (md : String) :
    (∀ cl ats pcs,
        (host.markdown md).filter Node.isElem = [Node.elem "p" cl ats pcs] →
        renderCompactMarkdown host md
          = [Node.elem "span" [] [] (eraseFirstParagraph (host.markdown md) ++ pcs)])
    ∧ ((firstParagraph (host.markdown md) = none
          ∨ ((host.markdown md).filter Node.isElem).length ≠ 1) →
        renderCompactMarkdown host md = [Node.elem "span" [] [] (host.markdown md)]) := by
  constructor
  · intro cl ats pcs h
    have hp : (Node.elem "p" cl ats pcs).isParagraph = true := rfl
    have hfp : firstParagraph (host.markdown md) = some (Node.elem "p" cl ats pcs) :=
      firstParagraph_of_filter_eq hp h
    have hlen : ((host.markdown md).filter Node.isElem).length = 1 := by rw [h]; rfl
    simp [renderCompactMarkdown, collapseSingleParagraph, hfp, hlen, Node.children]
  · intro h
    rcases h with h | h
    · simp [renderCompactMarkdown, collapseSingleParagraph, h]
    · cases hfp : firstParagraph (host.markdown md) with
      | none => simp [renderCompactMarkdown, collapseSingleParagraph, hfp]
      | some p => simp [renderCompactMarkdown, collapseSingleParagraph, hfp, h]

/-- Witness for C8: the sample host renders `"hi"` as one paragraph, whose
text child is hoisted into the span wrapper. -/
theorem renderCompactMarkdown_generic_collapse_witness :
    renderCompactMarkdown sampleHost "hi" = [Node.elem "span" [] [] [Node.text "hi"]] :=
  (renderCompactMarkdown_generic_collapse sampleHost "hi").1 [] [] [Node.text "hi"] rfl

/-- Claim C9: the renderer is a total function (no exception path exists in
the model outside the host markup renderer, which is a parameter), and every
value shape not matched by an earlier dispatch arm degrades to a visible
placeholder text: `<function>` for functions, the unknown-widget marker
(with an opening quote and no closing quote, as in the source) for widgets
with an unrecognized discriminator, and `Unrecognized: ` plus the
JSON-like dump for anything else. -/
theorem renderValue_fallback_placeholders (host : Host) (settings : QuerySettings)
    (expandList : Bool) (context : ValueRenderContext) (depth : Nat) (f w d : String)
    (hdepth : depth ≤ settings.maxRecursiveRenderDepth) :
    renderValue host settings expandList context depth (.func f) = [Node.text "<function>"]
    ∧ renderValue host settings expandList context depth (.unknownWidget w)
        = [Node.text ("<unknown widget \x27" ++ w ++ ">")]
    ∧ renderValue host settings expandList context depth (.unrecognized d)
        = [Node.text ("Unrecognized: " ++ d)] := by
  have hd : ¬ depth > settings.maxRecursiveRenderDepth := Nat.not_lt.mpr hdepth
  exact ⟨by simp [renderValue, hd], by simp [renderValue, hd], by simp [renderValue, hd]⟩

/-- Witness for C9 on a function, a widget tagged `mystery` and an
unclassified value. -/
theorem renderValue_fallback_placeholders_witness :
    renderValue sampleHost sampleSettings false .root 0 (.func "f") = [Node.text "<function>"]
    ∧ renderValue sampleHost sampleSettings false .root 0 (.unknownWidget "mystery")
        = [Node.text ("<unknown widget \x27" ++ "mystery" ++ ">")]
    ∧ renderValue sampleHost sampleSettings false .root 0 (.unrecognized "undefined")
        = [Node.text ("Unrecognized: " ++ "undefined")] :=
  renderValue_fallback_placeholders sampleHost sampleSettings false .root 0
    "f" "mystery" "undefined" (by decide)

/-- Claim C10: in expanded mode an empty sequence renders as a bulleted-list
node with zero items and an empty keyed mapping (with a non-foreign type
name) renders as a bulleted-list node with zero items; neither `<empty list>`
nor `<empty object>` appears, because the emptiness check sits only on the
compact branch. -/
theorem renderValue_expanded_empty_lists (host : Host) (settings : QuerySettings)
    (context : ValueRenderContext) (depth : Nat) (ty : Option String)
    (hdepth : depth ≤ settings.maxRecursiveRenderDepth)
    (hty : ty = none ∨ ty = some "" ∨ ty = some "Object") :
    renderValue host settings true context depth (.array [])
        = [Node.elem "ul" (listUlClasses context) [] []]
    ∧ renderValue host settings true context depth (.obj ty [])
        = [Node.elem "ul" ["dataview", "dataview-ul", "dataview-result-object-ul"] [] []] := by
  have hd : ¬ depth > settings.maxRecursiveRenderDepth := Nat.not_lt.mpr hdepth
  refine ⟨by simp [renderValue, renderElems, hd], ?_⟩
  rcases hty with h | h | h <;> subst h <;>
    simp [renderValue, renderObjBody, renderEntries, hd]

/-- Witness for C10 at depth 0 with the generic `Object` type name. -/
theorem renderValue_expanded_empty_lists_witness :
    renderValue sampleHost sampleSettings true .root 0 (.array [])
        = [Node.elem "ul" (listUlClasses .root) [] []]
    ∧ renderValue sampleHost sampleSettings true .root 0 (.obj (some "Object") [])
        = [Node.elem "ul" ["dataview", "dataview-ul", "dataview-result-object-ul"] [] []] :=
  renderValue_expanded_empty_lists sampleHost sampleSettings .root 0
    (some "Object") (by decide) (Or.inr (Or.inr rfl))

end Dataview
